import Mathlib

/-!
Verification of the resourcesbot snapshot data model, comparator and codec
of the pywikitools repository.

The repository ships the test suite (`test/test_data_structures.py`,
`test/test_fortraininglib.py`) and the callers, while the implementation
modules `pywikitools/resourcesbot/data_structures.py`,
`pywikitools/resourcesbot/changes.py` and `pywikitools/fortraininglib.py`
are not part of the available sources.  The definitions below therefore
model those missing modules from the specification (each such definition
carries a doc comment starting with `Modelled from the spec:`), staying
consistent with the shipped tests.
-/

set_option autoImplicit false

namespace Resourcesbot

/-- Modelled from the spec: timestamps are "a standard textual date-time
form" (ISO 8601, as used by `datetime.fromisoformat`).  A point in time is
a record of calendar fields plus an optional UTC offset
(sign, hours, minutes). -/
structure Timestamp where
  year : Nat
  month : Nat
  day : Nat
  hour : Nat
  minute : Nat
  second : Nat
  tz : Option (Bool × Nat × Nat)
  deriving DecidableEq, Repr

/-- Digit character for a value below ten. -/
def dChar (n : Nat) : Char := Char.ofNat (48 + n % 10)

/-- Inverse of `dChar` on digit characters. -/
def cToD (c : Char) : Option Nat :=
  if '0' ≤ c ∧ c ≤ '9' then some (c.toNat - 48) else none

/-- Two-digit zero-padded rendering of a value below one hundred. -/
def pad2 (n : Nat) : List Char := [dChar (n / 10), dChar (n % 10)]

/-- Four-digit zero-padded rendering of a value below ten thousand. -/
def pad4 (n : Nat) : List Char := pad2 (n / 100) ++ pad2 (n % 100)

/-- Read two digit characters as a value below one hundred. -/
def read2 (a b : Char) : Option Nat :=
  match cToD a, cToD b with
  | some x, some y => some (x * 10 + y)
  | _, _ => none

/-- Modelled from the spec: rendering of the optional UTC offset in the
standard form `±HH:MM` (empty for a naive timestamp). -/
def formatTz : Option (Bool × Nat × Nat) → List Char
  | none => []
  | some (false, h, m) => '+' :: (pad2 h ++ ':' :: pad2 m)
  | some (true, h, m) => '-' :: (pad2 h ++ ':' :: pad2 m)

/-- Modelled from the spec: ISO 8601 rendering
`YYYY-MM-DDTHH:MM:SS[±HH:MM]` used when serializing timestamps
(`datetime.isoformat`). -/
def formatTsL (t : Timestamp) : List Char :=
  pad4 t.year ++ '-' :: pad2 t.month ++ '-' :: pad2 t.day ++
    'T' :: pad2 t.hour ++ ':' :: pad2 t.minute ++ ':' :: pad2 t.second ++
    formatTz t.tz

/-- Parse the optional trailing UTC offset `±HH:MM`. -/
def parseTz : List Char → Option (Option (Bool × Nat × Nat))
  | [] => some none
  | '+' :: h1 :: h2 :: ':' :: m1 :: m2 :: [] =>
      match read2 h1 h2, read2 m1 m2 with
      | some h, some m => some (some (false, h, m))
      | _, _ => none
  | '-' :: h1 :: h2 :: ':' :: m1 :: m2 :: [] =>
      match read2 h1 h2, read2 m1 m2 with
      | some h, some m => some (some (true, h, m))
      | _, _ => none
  | _ => none

/-- Modelled from the spec: parsing of the standard textual date-time form
(`datetime.fromisoformat`); anything not of that shape is rejected. -/
def parseTsL : List Char → Option Timestamp
  | y1 :: y2 :: y3 :: y4 :: '-' :: mo1 :: mo2 :: '-' :: d1 :: d2 ::
      'T' :: h1 :: h2 :: ':' :: mi1 :: mi2 :: ':' :: s1 :: s2 :: rest =>
    match read2 y1 y2, read2 y3 y4, read2 mo1 mo2, read2 d1 d2,
        read2 h1 h2, read2 mi1 mi2, read2 s1 s2, parseTz rest with
    | some yh, some yl, some mo, some d, some h, some mi, some s, some tz =>
        some ⟨yh * 100 + yl, mo, d, h, mi, s, tz⟩
    | _, _, _, _, _, _, _, _ => none
  | _ => none

/-- Modelled from the spec: the legacy-input normalisation replacing the
literal character `Z` by `+00:00` (Python `str.replace` substitutes every
occurrence). -/
def replaceZ : List Char → List Char
  | [] => []
  | 'Z' :: rest => '+' :: '0' :: '0' :: ':' :: '0' :: '0' :: replaceZ rest
  | c :: rest => c :: replaceZ rest

/-- Modelled from the spec: decoding a textual timestamp accepts the legacy
"Z-suffixed UTC" variant by first normalising `Z` to `+00:00` and then
parsing the standard form. -/
def parseTimestamp (s : String) : Option Timestamp :=
  parseTsL (replaceZ s.data)

/-- Modelled from the spec: the ISO rendering of a timestamp as a string. -/
def formatTimestamp (t : Timestamp) : String :=
  ⟨formatTsL t⟩

/-- Modelled from the spec: the sentinel timestamp "far in the past"
substituted when an input timestamp cannot be parsed. -/
def sentinelTimestamp : Timestamp :=
  ⟨1970, 1, 1, 0, 0, 0, none⟩

/-- Bounds on the optional UTC offset fields. -/
def tzOk : Option (Bool × Nat × Nat) → Bool
  | none => true
  | some (_, h, m) => h < 24 && m < 60

/-- A timestamp whose fields are in calendar range (in particular each
numeric field fits its zero-padded digit width). -/
def Timestamp.valid (t : Timestamp) : Prop :=
  1 ≤ t.year ∧ t.year ≤ 9999 ∧ 1 ≤ t.month ∧ t.month ≤ 12 ∧
    1 ≤ t.day ∧ t.day ≤ 31 ∧ t.hour < 24 ∧ t.minute < 60 ∧ t.second < 60 ∧
    tzOk t.tz = true

instance (t : Timestamp) : Decidable t.valid := by
  unfold Timestamp.valid; infer_instance

/-- Lexicographic comparison key of a timestamp, ignoring the offset (the
tests compare the naive sentinel against the naive current time). -/
def Timestamp.key (t : Timestamp) : Nat :=
  ((((t.year * 13 + t.month) * 32 + t.day) * 24 + t.hour) * 60 + t.minute) * 60
    + t.second

/-- Modelled from the spec: the chronological order on timestamps used by
the "sentinel is far in the past" requirement. -/
def Timestamp.lt (a b : Timestamp) : Prop := a.key < b.key

instance (a b : Timestamp) : Decidable (a.lt b) := by
  unfold Timestamp.lt; infer_instance

/-- Modelled from the spec: the per-worksheet translation progress value
`\x7btotal, translated, fuzzy, proofread\x7d` (all non-negative integers). -/
structure TranslationProgress where
  total : Nat
  translated : Nat
  fuzzy : Nat
  proofread : Nat
  deriving DecidableEq, Repr

/-- Modelled from the spec: a translation is unfinished when the translated
ratio is below the "nearly done" threshold of 90 percent; such worksheets
are excluded entirely from published overviews. -/
def TranslationProgress.is_unfinished (p : TranslationProgress) : Bool :=
  p.translated * 10 < p.total * 9

/-- Modelled from the spec: a translation is incomplete when it is not
finished (`translated == total`) but the translated ratio reaches the
"nearly done" threshold of 90 percent. -/
def TranslationProgress.is_incomplete (p : TranslationProgress) : Bool :=
  p.translated < p.total && !p.is_unfinished

/-- Modelled from the spec: one generated file artifact — type, URL,
modification time and an optional source translation unit. -/
structure FileInfo where
  file_type : String
  url : String
  timestamp : Timestamp
  translation_unit : Option Nat
  deriving DecidableEq, Repr

/-- Modelled from the spec: constructing a `FileInfo` from a textual
timestamp never fails; an unparsable timestamp is replaced by the sentinel
"far in the past" and an error diagnostic is recorded (second component). -/
def makeFileInfo (file_type url : String) (ts : String)
    (translation_unit : Option Nat) : FileInfo × List String :=
  match parseTimestamp ts with
  | some t => (⟨file_type, url, t, translation_unit⟩, [])
  | none =>
      (⟨file_type, url, sentinelTimestamp, translation_unit⟩,
        ["ERROR invalid timestamp format: " ++ ts])

/-- First value bound to a key in an association list (Python `dict`
lookup for the insertion-ordered mappings of the model). -/
def assocLookup {α : Type} (k : String) : List (String × α) → Option α
  | [] => none
  | (k2, v) :: rest => if k = k2 then some v else assocLookup k rest

/-- Modelled from the spec: one translated worksheet's metadata plus its
insertion-ordered mapping `file_type → FileInfo`. -/
structure WorksheetInfo where
  page : String
  language_code : String
  title : String
  progress : TranslationProgress
  version : String
  translation_unit : Option String
  files : List (String × FileInfo)
  deriving DecidableEq, Repr

/-- Modelled from the spec: inserting an artifact replaces the entry of an
already-present file type in place (last write wins, order preserved) and
appends a new file type at the end. -/
def addOrReplace (fi : FileInfo) : List (String × FileInfo) →
    List (String × FileInfo)
  | [] => [(fi.file_type, fi)]
  | (k, v) :: rest =>
      if k = fi.file_type then (k, fi) :: rest
      else (k, v) :: addOrReplace fi rest

/-- Modelled from the spec: `add_artifact` / `add_file_info` inserts or
replaces by `file_type`. -/
def WorksheetInfo.add_file_info (ws : WorksheetInfo) (fi : FileInfo) :
    WorksheetInfo :=
  { ws with files := addOrReplace fi ws.files }

/-- Modelled from the spec: whether the worksheet carries an artifact of
the given file type. -/
def WorksheetInfo.has_file_type (ws : WorksheetInfo) (ft : String) : Bool :=
  (assocLookup ft ws.files).isSome

/-- Modelled from the spec: the artifact stored for a file type, if any. -/
def WorksheetInfo.get_file_type_info (ws : WorksheetInfo) (ft : String) :
    Option FileInfo :=
  assocLookup ft ws.files

/-- Modelled from the spec: the insertion-ordered artifact mapping. -/
def WorksheetInfo.get_file_infos (ws : WorksheetInfo) :
    List (String × FileInfo) :=
  ws.files

/-- Modelled from the spec: the worksheet's completeness classification
`is_incomplete`. -/
def WorksheetInfo.is_incomplete (ws : WorksheetInfo) : Bool :=
  ws.progress.is_incomplete

/-- Modelled from the spec: all worksheets known for one language, keyed by
worksheet identifier, insertion order preserved. -/
structure LanguageInfo where
  language_code : String
  worksheets : List (String × WorksheetInfo)
  deriving DecidableEq, Repr

/-- Modelled from the spec: `add_worksheet_info` inserts or replaces
wholesale by worksheet identifier. -/
def addOrReplaceWs (wid : String) (ws : WorksheetInfo) :
    List (String × WorksheetInfo) → List (String × WorksheetInfo)
  | [] => [(wid, ws)]
  | (k, v) :: rest =>
      if k = wid then (k, ws) :: rest
      else (k, v) :: addOrReplaceWs wid ws rest

/-- Modelled from the spec: add a worksheet snapshot to a language
snapshot. -/
def LanguageInfo.add_worksheet_info (li : LanguageInfo) (wid : String)
    (ws : WorksheetInfo) : LanguageInfo :=
  { li with worksheets := addOrReplaceWs wid ws li.worksheets }

/-- Modelled from the spec: whether the language snapshot knows the given
worksheet. -/
def LanguageInfo.has_worksheet (li : LanguageInfo) (wid : String) : Bool :=
  (assocLookup wid li.worksheets).isSome

/-- Modelled from the spec: the closed enumeration of change
classifications — new worksheet, new artifact of a type, updated artifact
of a type, new version. -/
inductive ChangeType where
  | NEW_WORKSHEET : ChangeType
  | NEW_ARTIFACT : String → ChangeType
  | UPDATED_ARTIFACT : String → ChangeType
  | UPDATED_WORKSHEET : ChangeType
  deriving DecidableEq, Repr

/-- The "new PDF artifact" classification. -/
def ChangeType.NEW_PDF : ChangeType := ChangeType.NEW_ARTIFACT "pdf"

/-- The "new ODT artifact" classification. -/
def ChangeType.NEW_ODT : ChangeType := ChangeType.NEW_ARTIFACT "odt"

/-- Modelled from the spec: one typed change event,
`\x7bworksheet_id, change_type\x7d`. -/
structure ChangeItem where
  worksheet_id : String
  change_type : ChangeType
  deriving DecidableEq, Repr

/-- Modelled from the spec: the ordered sequence of change events. -/
structure ChangeLog where
  changes : List ChangeItem
  deriving DecidableEq, Repr

/-- Modelled from the spec: emptiness check of a change log. -/
def ChangeLog.is_empty (log : ChangeLog) : Bool :=
  log.changes.isEmpty

/-- Modelled from the spec: number of change events in a change log. -/
def ChangeLog.count_changes (log : ChangeLog) : Nat :=
  log.changes.length

/-- Modelled from the spec: the per-worksheet step of the comparator —
a worksheet absent in `old` yields `NEW_WORKSHEET` plus one "new artifact"
event per artifact type; a worksheet present in both yields artifact-type
events (new or updated by URL) followed by a version-change event. -/
def compareStep (old : LanguageInfo) (e : String × WorksheetInfo) :
    List ChangeItem :=
  match assocLookup e.1 old.worksheets with
  | none =>
      ⟨e.1, ChangeType.NEW_WORKSHEET⟩ ::
        e.2.files.map (fun p => ⟨e.1, ChangeType.NEW_ARTIFACT p.1⟩)
  | some ows =>
      (e.2.files.filterMap (fun p =>
        match assocLookup p.1 ows.files with
        | none => some ⟨e.1, ChangeType.NEW_ARTIFACT p.1⟩
        | some ofi =>
            if p.2.url = ofi.url then none
            else some ⟨e.1, ChangeType.UPDATED_ARTIFACT p.1⟩)) ++
      (if e.2.version = ows.version then []
       else [⟨e.1, ChangeType.UPDATED_WORKSHEET⟩])

/-- Modelled from the spec: the comparator — iterate the worksheets of the
new snapshot in insertion order and collect the per-worksheet events. -/
def LanguageInfo.compare (new old : LanguageInfo) : ChangeLog :=
  ⟨new.worksheets.flatMap (compareStep old)⟩

/-- Keys of an insertion-ordered association list. -/
def assocKeys {α : Type} (l : List (String × α)) : List String :=
  l.map Prod.fst

/-- The data-model invariant of a worksheet snapshot: at most one artifact
per file type, every stored artifact filed under its own type, and every
timestamp in calendar range. -/
def WorksheetInfo.valid (ws : WorksheetInfo) : Prop :=
  (assocKeys ws.files).Nodup ∧
    ∀ p ∈ ws.files, p.1 = (p.2 : FileInfo).file_type ∧ p.2.timestamp.valid

/-- The data-model invariant of a language snapshot: unique worksheet keys,
every worksheet filed under its own identifier, a shared language code, and
the worksheet invariant throughout. -/
def LanguageInfo.valid (li : LanguageInfo) : Prop :=
  (assocKeys li.worksheets).Nodup ∧
    ∀ p ∈ li.worksheets, p.1 = (p.2 : WorksheetInfo).page ∧
      p.2.language_code = li.language_code ∧ p.2.valid

instance (ws : WorksheetInfo) : Decidable ws.valid := by
  unfold WorksheetInfo.valid; infer_instance

instance (li : LanguageInfo) : Decidable li.valid := by
  unfold LanguageInfo.valid; infer_instance

/-- URL of the PDF artifact used throughout the repository tests. -/
def TEST_URL : String :=
  "https://www.4training.net/mediawiki/images/7/70/Gottes_Reden_wahrnehmen.pdf"

/-- A different URL for the same file name, as in the repository tests. -/
def TEST_URL2 : String :=
  "https://www.4training.net/mediawiki/images/1/15/Gottes_Reden_wahrnehmen.pdf"

/-- The timestamp `2018-12-20T12:58:57+00:00` of the repository tests. -/
def testTimestamp : Timestamp := ⟨2018, 12, 20, 12, 58, 57, some (false, 0, 0)⟩

/-- A plausible "current time" for the sentinel comparison. -/
def nowTimestamp : Timestamp := ⟨2022, 10, 12, 0, 0, 0, none⟩

/-- The finished progress `44/44/0/0` of the repository tests. -/
def progressFinished : TranslationProgress := ⟨44, 44, 0, 0⟩

/-- The nearly-done progress `total 44, translated 40, fuzzy 2`. -/
def progressIncomplete : TranslationProgress := ⟨44, 40, 2, 0⟩

/-- The unfinished progress `total 44, translated 20, fuzzy 2`. -/
def progressUnfinished : TranslationProgress := ⟨44, 20, 2, 0⟩

/-- A PDF artifact fixture. -/
def pdfFileInfo : FileInfo := ⟨"pdf", TEST_URL, testTimestamp, none⟩

/-- A PDF artifact with the same type but a different URL. -/
def pdfFileInfo2 : FileInfo := ⟨"pdf", TEST_URL2, testTimestamp, none⟩

/-- An ODT artifact fixture. -/
def odtFileInfo : FileInfo := ⟨"odt", TEST_URL2, testTimestamp, none⟩

/-- The worksheet fixture of the repository tests, carrying one PDF. -/
def testWorksheet : WorksheetInfo :=
  ⟨"Hearing_from_God", "de", "Gottes Reden wahrnehmen", progressFinished,
    "1.2", none, [("pdf", pdfFileInfo)]⟩

/-- The "Prayer" worksheet fixture, carrying one PDF artifact. -/
def prayerWorksheet : WorksheetInfo :=
  ⟨"Prayer", "de", "Gebet", progressFinished, "1.2", none,
    [("pdf", pdfFileInfo)]⟩

/-- A one-worksheet language snapshot fixture. -/
def testLanguageInfo : LanguageInfo :=
  ⟨"de", [("Hearing_from_God", testWorksheet)]⟩

/-- Modelled from the spec: a state-passing rendition of the comparator
loop — the two snapshots are threaded through the iteration as explicit
state together with the accumulated change log, making the frame property
(no mutation of either input) provable. -/
def compareRun (new old : LanguageInfo) :
    LanguageInfo × LanguageInfo × ChangeLog :=
  new.worksheets.foldl
    (fun st e => (st.1, st.2.1, ⟨st.2.2.changes ++ compareStep st.2.1 e⟩))
    (new, old, ⟨[]⟩)

mutual
/-- Modelled from the spec: the canonical serialized form — a JSON value
(strings, numbers and insertion-ordered objects are all the codec needs). -/
inductive Json where
  | str : String → Json
  | num : Nat → Json
  | obj : JObj → Json

/-- The insertion-ordered fields of a JSON object. -/
inductive JObj where
  | nil : JObj
  | cons : String → Json → JObj → JObj
end

mutual
/-- Modelled from the spec: canonical textual rendering of a JSON value
(Python `json.JSONEncoder` with its default separators). -/
def jsonToString : Json → String
  | .str s => "\"" ++ s ++ "\""
  | .num n => toString n
  | .obj o => "\x7b" ++ jObjToString o ++ "\x7d"

/-- Rendering of the fields of a JSON object, comma separated. -/
def jObjToString : JObj → String
  | .nil => ""
  | .cons k v .nil => "\"" ++ k ++ "\": " ++ jsonToString v
  | .cons k v (.cons k2 v2 rest) =>
      "\"" ++ k ++ "\": " ++ jsonToString v ++ ", " ++
        jObjToString (.cons k2 v2 rest)
end

/-- Modelled from the spec: encoding of a translation progress value. -/
def encodeTranslationProgress (p : TranslationProgress) : Json :=
  .obj (.cons "total" (.num p.total)
    (.cons "translated" (.num p.translated)
    (.cons "fuzzy" (.num p.fuzzy)
    (.cons "proofread" (.num p.proofread) .nil))))

/-- Decoding of a translation progress value. -/
def decodeTranslationProgress : Json → Option TranslationProgress
  | .obj (.cons "total" (.num t)
      (.cons "translated" (.num tr)
      (.cons "fuzzy" (.num f)
      (.cons "proofread" (.num pr) .nil)))) => some ⟨t, tr, f, pr⟩
  | _ => none

/-- Modelled from the spec: encoding of a `FileInfo`, tagged with a type
discriminator; the optional translation unit is present in the encoding
exactly when it is present in the value. -/
def encodeFileInfo (fi : FileInfo) : Json :=
  match fi.translation_unit with
  | none =>
      .obj (.cons "__class__" (.str "FileInfo")
        (.cons "file_type" (.str fi.file_type)
        (.cons "url" (.str fi.url)
        (.cons "timestamp" (.str (formatTimestamp fi.timestamp)) .nil))))
  | some n =>
      .obj (.cons "__class__" (.str "FileInfo")
        (.cons "file_type" (.str fi.file_type)
        (.cons "url" (.str fi.url)
        (.cons "timestamp" (.str (formatTimestamp fi.timestamp))
        (.cons "translation_unit" (.num n) .nil)))))

/-- Modelled from the spec: decoding of a `FileInfo`, recognised by its
type discriminator; the timestamp is parsed by the same parser that
accepts the legacy Z-suffixed variant. -/
def decodeFileInfo : Json → Option FileInfo
  | .obj (.cons "__class__" (.str "FileInfo")
      (.cons "file_type" (.str ft)
      (.cons "url" (.str u)
      (.cons "timestamp" (.str ts) .nil)))) =>
      (parseTimestamp ts).map (fun t => ⟨ft, u, t, none⟩)
  | .obj (.cons "__class__" (.str "FileInfo")
      (.cons "file_type" (.str ft)
      (.cons "url" (.str u)
      (.cons "timestamp" (.str ts)
      (.cons "translation_unit" (.num n) .nil))))) =>
      (parseTimestamp ts).map (fun t => ⟨ft, u, t, some n⟩)
  | _ => none

/-- Encoding of the insertion-ordered artifact mapping. -/
def encodeFiles : List (String × FileInfo) → JObj
  | [] => .nil
  | (k, fi) :: rest => .cons k (encodeFileInfo fi) (encodeFiles rest)

/-- Decoding of the insertion-ordered artifact mapping. -/
def decodeFiles : JObj → Option (List (String × FileInfo))
  | .nil => some []
  | .cons k v rest =>
      match decodeFileInfo v, decodeFiles rest with
      | some fi, some fis => some ((k, fi) :: fis)
      | _, _ => none

/-- Modelled from the spec: encoding of a `WorksheetInfo`, tagged with a
type discriminator; optional-field presence is preserved and the artifact
mapping keeps its insertion order. -/
def encodeWorksheetInfo (ws : WorksheetInfo) : Json :=
  match ws.translation_unit with
  | none =>
      .obj (.cons "__class__" (.str "WorksheetInfo")
        (.cons "page" (.str ws.page)
        (.cons "language_code" (.str ws.language_code)
        (.cons "title" (.str ws.title)
        (.cons "progress" (encodeTranslationProgress ws.progress)
        (.cons "version" (.str ws.version)
        (.cons "files" (.obj (encodeFiles ws.files)) .nil)))))))
  | some u =>
      .obj (.cons "__class__" (.str "WorksheetInfo")
        (.cons "page" (.str ws.page)
        (.cons "language_code" (.str ws.language_code)
        (.cons "title" (.str ws.title)
        (.cons "progress" (encodeTranslationProgress ws.progress)
        (.cons "version" (.str ws.version)
        (.cons "translation_unit" (.str u)
        (.cons "files" (.obj (encodeFiles ws.files)) .nil))))))))

/-- Decoding of the optional translation unit and the artifact mapping at
the tail of a serialized worksheet. -/
def decodeWSTail : JObj → Option (Option String × List (String × FileInfo))
  | .cons "files" (.obj fs) .nil =>
      (decodeFiles fs).map (fun l => (none, l))
  | .cons "translation_unit" (.str u) (.cons "files" (.obj fs) .nil) =>
      (decodeFiles fs).map (fun l => (some u, l))
  | _ => none

/-- Decoding of a `WorksheetInfo`, recognised by its type discriminator. -/
def decodeWorksheetInfo : Json → Option WorksheetInfo
  | .obj (.cons "__class__" (.str "WorksheetInfo")
      (.cons "page" (.str pg)
      (.cons "language_code" (.str lc)
      (.cons "title" (.str ti)
      (.cons "progress" prog
      (.cons "version" (.str v) rest)))))) =>
      match decodeTranslationProgress prog, decodeWSTail rest with
      | some p, some (tu, fis) => some ⟨pg, lc, ti, p, v, tu, fis⟩
      | _, _ => none
  | _ => none

/-- Encoding of the insertion-ordered worksheet mapping. -/
def encodeWorksheets : List (String × WorksheetInfo) → JObj
  | [] => .nil
  | (k, ws) :: rest => .cons k (encodeWorksheetInfo ws) (encodeWorksheets rest)

/-- Decoding of the insertion-ordered worksheet mapping. -/
def decodeWorksheets : JObj → Option (List (String × WorksheetInfo))
  | .nil => some []
  | .cons k v rest =>
      match decodeWorksheetInfo v, decodeWorksheets rest with
      | some ws, some wss => some ((k, ws) :: wss)
      | _, _ => none

/-- Modelled from the spec: encoding of a `LanguageInfo`, tagged with a
type discriminator. -/
def encodeLanguageInfo (li : LanguageInfo) : Json :=
  .obj (.cons "__class__" (.str "LanguageInfo")
    (.cons "language_code" (.str li.language_code)
    (.cons "worksheets" (.obj (encodeWorksheets li.worksheets)) .nil)))

/-- Decoding of a `LanguageInfo`, recognised by its type discriminator. -/
def decodeLanguageInfo : Json → Option LanguageInfo
  | .obj (.cons "__class__" (.str "LanguageInfo")
      (.cons "language_code" (.str lc)
      (.cons "worksheets" (.obj wss) .nil))) =>
      (decodeWorksheets wss).map (fun l => ⟨lc, l⟩)
  | _ => none

/-- The closed union of serializable snapshot types. -/
inductive DataStructure where
  | file : FileInfo → DataStructure
  | worksheet : WorksheetInfo → DataStructure
  | language : LanguageInfo → DataStructure
  deriving DecidableEq, Repr

/-- Modelled from the spec: the polymorphic encoder dispatching on the
snapshot type (`DataStructureEncoder`). -/
def DataStructureEncoder.encode : DataStructure → Json
  | .file fi => encodeFileInfo fi
  | .worksheet ws => encodeWorksheetInfo ws
  | .language li => encodeLanguageInfo li

/-- Modelled from the spec: the polymorphic decoder (`json_decode`), which
recognises each tagged fragment by its discriminator and reconstructs the
matching snapshot type. -/
def json_decode (j : Json) : Option DataStructure :=
  match decodeFileInfo j with
  | some fi => some (.file fi)
  | none =>
      match decodeWorksheetInfo j with
      | some ws => some (.worksheet ws)
      | none =>
          match decodeLanguageInfo j with
          | some li => some (.language li)
          | none => none

/-- A persisted `FileInfo` document carrying a legacy Z-suffixed
timestamp. -/
def fileInfoJsonZ : Json :=
  .obj (.cons "__class__" (.str "FileInfo")
    (.cons "file_type" (.str "odt")
    (.cons "url" (.str TEST_URL2)
    (.cons "timestamp" (.str "2018-12-20T12:58:57Z") .nil))))

/-- The same persisted document with the standard offset form. -/
def fileInfoJsonOffset : Json :=
  .obj (.cons "__class__" (.str "FileInfo")
    (.cons "file_type" (.str "odt")
    (.cons "url" (.str TEST_URL2)
    (.cons "timestamp" (.str "2018-12-20T12:58:57+00:00") .nil))))

theorem cToD_dChar : ∀ d : Nat, d < 10 → cToD (dChar d) = some d := by
  decide

theorem read2_pad2 (n : Nat) (h : n < 100) :
    read2 (dChar (n / 10)) (dChar (n % 10)) = some n := by
  have h1 : n / 10 < 10 := by omega
  have h2 : n % 10 < 10 := Nat.mod_lt _ (by omega)
  rw [read2, cToD_dChar _ h1, cToD_dChar _ h2]
  have := Nat.div_add_mod n 10
  simp
  omega

theorem dChar_ne_Z : ∀ d : Nat, dChar d ≠ 'Z' := by
  have h : ∀ k, k < 10 → Char.ofNat (48 + k) ≠ 'Z' := by decide
  intro d
  unfold dChar
  exact h (d % 10) (Nat.mod_lt _ (by omega))

theorem replaceZ_of_no_Z : ∀ cs : List Char, (∀ c ∈ cs, c ≠ 'Z') →
    replaceZ cs = cs := by
  intro cs h
  induction cs with
  | nil => rfl
  | cons c rest ih =>
      have hc : c ≠ 'Z' := h c (List.mem_cons_self c rest)
      have hrest := ih (fun x hx => h x (List.mem_cons_of_mem c hx))
      have hstep : replaceZ (c :: rest) = c :: replaceZ rest := by
        rw [replaceZ.eq_def]
        split
        · rename_i heq; exact absurd heq (by simp)
        · rename_i heq
          obtain ⟨h1, -⟩ := List.cons.inj heq
          exact absurd h1 hc
        · rename_i hne heq
          obtain ⟨h1, h2⟩ := List.cons.inj heq
          rw [h1, h2]
      rw [hstep, hrest]

theorem pad2_no_Z (n : Nat) : ∀ c ∈ pad2 n, c ≠ 'Z' := by
  intro c hc
  simp only [pad2, List.mem_cons, List.not_mem_nil, or_false] at hc
  rcases hc with rfl | rfl <;> exact dChar_ne_Z _

theorem pad4_no_Z (n : Nat) : ∀ c ∈ pad4 n, c ≠ 'Z' := by
  intro c hc
  rcases List.mem_append.1 hc with h | h
  · exact pad2_no_Z _ _ h
  · exact pad2_no_Z _ _ h

theorem formatTz_no_Z (o : Option (Bool × Nat × Nat)) :
    ∀ c ∈ formatTz o, c ≠ 'Z' := by
  intro c hc
  match o with
  | none => simp [formatTz] at hc
  | some (false, hh, mm) | some (true, hh, mm) =>
      simp only [formatTz] at hc
      rcases List.mem_cons.1 hc with rfl | hc2
      · decide
      · rcases List.mem_append.1 hc2 with h | h
        · exact pad2_no_Z _ _ h
        · rcases List.mem_cons.1 h with rfl | h2
          · decide
          · exact pad2_no_Z _ _ h2

theorem formatTsL_no_Z (t : Timestamp) : ∀ c ∈ formatTsL t, c ≠ 'Z' := by
  unfold formatTsL
  simp only [List.forall_mem_append, List.forall_mem_cons]
  repeat' apply And.intro
  all_goals
    first
      | exact pad4_no_Z _
      | exact pad2_no_Z _
      | exact formatTz_no_Z _
      | decide

theorem parseTz_formatTz (o : Option (Bool × Nat × Nat)) (h : tzOk o = true) :
    parseTz (formatTz o) = some o := by
  match o with
  | none => rfl
  | some (false, hh, mm) | some (true, hh, mm) =>
      simp only [tzOk, Bool.and_eq_true, decide_eq_true_eq] at h
      obtain ⟨h1, h2⟩ := h
      simp only [formatTz, pad2, List.cons_append, List.nil_append, parseTz]
      rw [read2_pad2 hh (by omega), read2_pad2 mm (by omega)]

theorem parseTsL_formatTsL (t : Timestamp) (h : t.valid) :
    parseTsL (formatTsL t) = some t := by
  obtain ⟨hy1, hy2, hm1, hm2, hd1, hd2, hh, hmi, hs, htz⟩ := h
  have hyh : t.year / 100 < 100 := by omega
  have hyl : t.year % 100 < 100 := by omega
  simp only [formatTsL, pad4, pad2, List.append_assoc, List.cons_append,
    List.nil_append]
  rw [parseTsL]
  rw [read2_pad2 _ hyh, read2_pad2 _ hyl, read2_pad2 _ (show t.month < 100 by omega),
    read2_pad2 _ (show t.day < 100 by omega), read2_pad2 _ (show t.hour < 100 by omega),
    read2_pad2 _ (show t.minute < 100 by omega), read2_pad2 _ (show t.second < 100 by omega),
    parseTz_formatTz _ htz]
  have hsum : t.year / 100 * 100 + t.year % 100 = t.year := by omega
  simp [hsum]

theorem parseTimestamp_formatTimestamp (t : Timestamp) (h : t.valid) :
    parseTimestamp (formatTimestamp t) = some t := by
  unfold parseTimestamp formatTimestamp
  rw [show (String.mk (formatTsL t)).data = formatTsL t from rfl,
    replaceZ_of_no_Z _ (formatTsL_no_Z t), parseTsL_formatTsL t h]


theorem addOrReplace_of_mem (fi : FileInfo) (l : List (String × FileInfo))
    (h : (assocLookup fi.file_type l).isSome = true) :
    (addOrReplace fi l).length = l.length ∧
      assocLookup fi.file_type (addOrReplace fi l) = some fi ∧
      (addOrReplace fi l).map Prod.fst = l.map Prod.fst := by
  induction l with
  | nil => simp [assocLookup] at h
  | cons p rest ih =>
      obtain ⟨k, v⟩ := p
      by_cases hk : k = fi.file_type
      · subst hk
        simp [addOrReplace, assocLookup]
      · have h2 : (assocLookup fi.file_type rest).isSome = true := by
          simpa [assocLookup, Ne.symm hk] using h
        obtain ⟨ih1, ih2, ih3⟩ := ih h2
        simp [addOrReplace, hk, assocLookup, Ne.symm hk, ih1, ih2, ih3]

/-- C5: the completeness classification — `44/44` is finished and not
incomplete, `total 44, translated 40, fuzzy 2` is incomplete (nearly done),
`total 44, translated 20, fuzzy 2` is neither, and in general a progress is
incomplete exactly when it is not finished but its translated ratio reaches
the 90 percent nearly-done threshold. -/
theorem completeness_classification :
    (progressFinished.translated = progressFinished.total ∧
      progressFinished.is_incomplete = false) ∧
    progressIncomplete.is_incomplete = true ∧
    (progressUnfinished.is_incomplete = false ∧
      progressUnfinished.translated ≠ progressUnfinished.total) ∧
    ∀ p : TranslationProgress,
      p.is_incomplete = true ↔
        p.translated < p.total ∧ p.total * 9 ≤ p.translated * 10 := by
  refine ⟨by decide, by decide, by decide, ?_⟩
  intro p
  unfold TranslationProgress.is_incomplete TranslationProgress.is_unfinished
  simp only [Bool.and_eq_true, decide_eq_true_eq, Bool.not_eq_true',
    decide_eq_false_iff_not]
  omega

/-- C10: for every translation-progress value, `is_unfinished` and
`is_incomplete` never both hold, and a finished progress
(`translated == total`) satisfies neither. -/
theorem unfinished_incomplete_exclusive (p : TranslationProgress) :
    ¬(p.is_unfinished = true ∧ p.is_incomplete = true) ∧
    (p.translated = p.total →
      p.is_unfinished = false ∧ p.is_incomplete = false) := by
  unfold TranslationProgress.is_incomplete TranslationProgress.is_unfinished
  simp only [Bool.and_eq_true, decide_eq_true_eq, Bool.not_eq_true',
    decide_eq_false_iff_not, not_and, Bool.and_eq_false_iff,
    Bool.not_eq_false', decide_eq_true_eq]
  omega

theorem unfinished_incomplete_exclusive_witness :
    (¬(progressFinished.is_unfinished = true ∧
        progressFinished.is_incomplete = true)) ∧
    (progressFinished.is_unfinished = false ∧
      progressFinished.is_incomplete = false) :=
  ⟨(unfinished_incomplete_exclusive progressFinished).1,
    (unfinished_incomplete_exclusive progressFinished).2 (by decide)⟩

/-- C6: adding a second artifact with an already-present file type replaces
the stored artifact in place — the artifact collection does not grow, the
stored artifact for the type is the latest one, and the insertion order of
file types is preserved. -/
theorem add_file_info_replaces (ws : WorksheetInfo) (fi : FileInfo)
    (h : ws.has_file_type fi.file_type = true) :
    (ws.add_file_info fi).get_file_infos.length =
        ws.get_file_infos.length ∧
      (ws.add_file_info fi).get_file_type_info fi.file_type = some fi ∧
      assocKeys (ws.add_file_info fi).get_file_infos =
        assocKeys ws.get_file_infos := by
  have := addOrReplace_of_mem fi ws.files h
  exact ⟨this.1, this.2.1, this.2.2⟩

theorem add_file_info_replaces_witness :
    testWorksheet.has_file_type pdfFileInfo2.file_type = true ∧
    ((testWorksheet.add_file_info pdfFileInfo2).get_file_infos.length =
        testWorksheet.get_file_infos.length ∧
      (testWorksheet.add_file_info pdfFileInfo2).get_file_type_info
          pdfFileInfo2.file_type = some pdfFileInfo2 ∧
      assocKeys (testWorksheet.add_file_info pdfFileInfo2).get_file_infos =
        assocKeys testWorksheet.get_file_infos) :=
  ⟨by decide, add_file_info_replaces testWorksheet pdfFileInfo2 (by decide)⟩

/-- C7: building a `FileInfo` from an unparsable timestamp string never
fails — the timestamp `2018-12-20-12-58-57` is rejected by the parser, the
constructed artifact carries the sentinel timestamp, an error diagnostic is
recorded, and the sentinel is strictly less than any current time (any
timestamp with a year after 1970). -/
theorem invalid_timestamp_sentinel :
    parseTimestamp "2018-12-20-12-58-57" = none ∧
    (makeFileInfo "odg" TEST_URL "2018-12-20-12-58-57" none).1.timestamp =
      sentinelTimestamp ∧
    (makeFileInfo "odg" TEST_URL "2018-12-20-12-58-57" none).2 ≠ [] ∧
    ∀ now : Timestamp, 1970 < now.year → sentinelTimestamp.lt now := by
  refine ⟨by decide, by decide, by decide, ?_⟩
  intro now h
  simp [Timestamp.lt, Timestamp.key, sentinelTimestamp]
  omega

theorem invalid_timestamp_sentinel_witness :
    1970 < nowTimestamp.year ∧ sentinelTimestamp.lt nowTimestamp :=
  ⟨by decide, invalid_timestamp_sentinel.2.2.2 nowTimestamp (by decide)⟩


theorem assocLookup_eq_of_mem {α : Type} (l : List (String × α)) (k : String)
    (v : α) (hnd : (assocKeys l).Nodup) (hm : (k, v) ∈ l) :
    assocLookup k l = some v := by
  induction l with
  | nil => cases hm
  | cons p rest ih =>
      obtain ⟨k2, v2⟩ := p
      simp only [assocKeys, List.map_cons, List.nodup_cons] at hnd
      obtain ⟨hk2, hnd2⟩ := hnd
      rcases List.mem_cons.1 hm with heq | hmem
      · obtain ⟨h1, h2⟩ := Prod.mk.injEq k v k2 v2 ▸ heq
        subst h1; subst h2
        simp [assocLookup]
      · have hkne : k ≠ k2 := by
          intro hkk
          subst hkk
          exact hk2 (List.mem_map_of_mem Prod.fst hmem)
        simp only [assocLookup, if_neg hkne]
        exact ih hnd2 hmem

theorem addOrReplace_of_absent (fi : FileInfo) (l : List (String × FileInfo))
    (h : assocLookup fi.file_type l = none) :
    addOrReplace fi l = l ++ [(fi.file_type, fi)] := by
  induction l with
  | nil => rfl
  | cons p rest ih =>
      obtain ⟨k, v⟩ := p
      by_cases hk : fi.file_type = k
      · subst hk
        simp [assocLookup] at h
      · have h2 : assocLookup fi.file_type rest = none := by
          simpa [assocLookup, hk] using h
        simp [addOrReplace, Ne.symm hk, ih h2]

theorem compareStep_self (old : LanguageInfo) (e : String × WorksheetInfo)
    (hv : old.valid) (hm : e ∈ old.worksheets) :
    compareStep old e = [] := by
  obtain ⟨wid, ws⟩ := e
  obtain ⟨hnd, hall⟩ := hv
  obtain ⟨-, -, hwsv⟩ := hall (wid, ws) hm
  obtain ⟨hfnd, -⟩ := hwsv
  have hlk : assocLookup wid old.worksheets = some ws :=
    assocLookup_eq_of_mem _ _ _ hnd hm
  simp only [compareStep, hlk]
  rw [List.filterMap_eq_nil_iff.mpr ?hp]
  case hp =>
    intro p hp2
    have hplk : assocLookup p.1 ws.files = some p.2 :=
      assocLookup_eq_of_mem _ _ _ hfnd (by simpa using hp2)
    simp [hplk]
  simp

theorem flatMap_compareStep_self (old : LanguageInfo)
    (l : List (String × WorksheetInfo)) (hv : old.valid)
    (hsub : ∀ e ∈ l, e ∈ old.worksheets) :
    l.flatMap (compareStep old) = [] := by
  rw [List.flatMap_eq_nil_iff]
  intro e he
  exact compareStep_self old e hv (hsub e he)

/-- C2: comparing a valid language snapshot against a structurally
identical copy of itself yields an empty change log. -/
theorem compare_self_empty (s s2 : LanguageInfo) (hv : s.valid)
    (heq : s2 = s) : (s.compare s2).is_empty = true := by
  rw [heq]
  unfold LanguageInfo.compare ChangeLog.is_empty
  rw [flatMap_compareStep_self s s.worksheets hv (fun e he => he)]
  rfl

theorem compare_self_empty_witness :
    testLanguageInfo.valid ∧
      (testLanguageInfo.compare testLanguageInfo).is_empty = true :=
  ⟨by decide, compare_self_empty testLanguageInfo testLanguageInfo
    (by decide) rfl⟩

/-- C3: a worksheet present in the new snapshot and absent in the old one
yields a `NEW_WORKSHEET` event followed by one "new artifact" event per
artifact type it carries; in particular a newly added worksheet carrying
one PDF artifact yields exactly one `NEW_WORKSHEET` event and one new-PDF
event. -/
theorem compare_new_worksheet (old : LanguageInfo) (wid : String)
    (ws : WorksheetInfo) (fi : FileInfo) (hv : old.valid)
    (habs : assocLookup wid old.worksheets = none) :
    (LanguageInfo.compare ⟨old.language_code, old.worksheets ++ [(wid, ws)]⟩
        old).changes =
      ⟨wid, ChangeType.NEW_WORKSHEET⟩ ::
        ws.files.map (fun p => ⟨wid, ChangeType.NEW_ARTIFACT p.1⟩) ∧
    (ws.files = [("pdf", fi)] →
      (LanguageInfo.compare ⟨old.language_code,
          old.worksheets ++ [(wid, ws)]⟩ old).changes =
        [⟨wid, ChangeType.NEW_WORKSHEET⟩, ⟨wid, ChangeType.NEW_PDF⟩]) := by
  have hmain :
      (LanguageInfo.compare ⟨old.language_code,
          old.worksheets ++ [(wid, ws)]⟩ old).changes =
      ⟨wid, ChangeType.NEW_WORKSHEET⟩ ::
        ws.files.map (fun p => ⟨wid, ChangeType.NEW_ARTIFACT p.1⟩) := by
    unfold LanguageInfo.compare
    rw [List.flatMap_append,
      flatMap_compareStep_self old old.worksheets hv (fun e he => he),
      List.nil_append]
    simp only [List.flatMap_cons, List.flatMap_nil, List.append_nil,
      compareStep, habs]
  refine ⟨hmain, fun hfiles => ?_⟩
  rw [hmain, hfiles]
  rfl

theorem compare_new_worksheet_witness :
    (LanguageInfo.compare ⟨testLanguageInfo.language_code,
        testLanguageInfo.worksheets ++ [("Prayer", prayerWorksheet)]⟩
        testLanguageInfo).changes =
      [⟨"Prayer", ChangeType.NEW_WORKSHEET⟩, ⟨"Prayer", ChangeType.NEW_PDF⟩] :=
  (compare_new_worksheet testLanguageInfo "Prayer" prayerWorksheet pdfFileInfo
    (by decide) (by decide)).2 rfl

/-- C4: if the new and old snapshots carry the same worksheets except that
one worksheet additionally received an ODT artifact of a type absent in the
old snapshot, the comparison yields exactly one change, classified as
new-ODT. -/
theorem compare_new_odt (lc : String)
    (pre post : List (String × WorksheetInfo)) (wid : String)
    (ws : WorksheetInfo) (fi : FileInfo)
    (hv : LanguageInfo.valid ⟨lc, pre ++ (wid, ws) :: post⟩)
    (hft : fi.file_type = "odt")
    (habs : ws.has_file_type "odt" = false) :
    LanguageInfo.compare ⟨lc, pre ++ (wid, ws.add_file_info fi) :: post⟩
        ⟨lc, pre ++ (wid, ws) :: post⟩ =
      ⟨[⟨wid, ChangeType.NEW_ODT⟩]⟩ ∧
    (LanguageInfo.compare ⟨lc, pre ++ (wid, ws.add_file_info fi) :: post⟩
        ⟨lc, pre ++ (wid, ws) :: post⟩).count_changes = 1 := by
  have hlnone : assocLookup "odt" ws.files = none := by
    unfold WorksheetInfo.has_file_type at habs
    cases hcase : assocLookup "odt" ws.files with
    | none => rfl
    | some x => rw [hcase] at habs; simp at habs
  have hfiles : (ws.add_file_info fi).files = ws.files ++ [("odt", fi)] := by
    unfold WorksheetInfo.add_file_info
    simp only
    rw [addOrReplace_of_absent fi ws.files (by rw [hft]; exact hlnone), hft]
  obtain ⟨hnd, hall⟩ := hv
  have hmem : (wid, ws) ∈ pre ++ (wid, ws) :: post := by
    simp
  obtain ⟨-, -, hwsv⟩ := hall (wid, ws) hmem
  obtain ⟨hfnd, -⟩ := hwsv
  have hlk : assocLookup wid (pre ++ (wid, ws) :: post) = some ws :=
    assocLookup_eq_of_mem _ _ _ hnd hmem
  have hmain : LanguageInfo.compare
      ⟨lc, pre ++ (wid, ws.add_file_info fi) :: post⟩
      ⟨lc, pre ++ (wid, ws) :: post⟩ = ⟨[⟨wid, ChangeType.NEW_ODT⟩]⟩ := by
    unfold LanguageInfo.compare
    rw [show pre ++ (wid, ws.add_file_info fi) :: post =
        pre ++ ([(wid, ws.add_file_info fi)] ++ post) from by simp,
      List.flatMap_append, List.flatMap_append]
    rw [flatMap_compareStep_self _ pre ⟨hnd, hall⟩
      (fun e he => List.mem_append_left _ he)]
    rw [flatMap_compareStep_self _ post ⟨hnd, hall⟩
      (fun e he => List.mem_append_right _ (List.mem_cons_of_mem _ he))]
    simp only [List.flatMap_cons, List.flatMap_nil, List.append_nil,
      List.nil_append]
    show ChangeLog.mk (compareStep _ (wid, ws.add_file_info fi)) = _
    unfold compareStep
    simp only [hlk, hfiles, List.filterMap_append]
    rw [List.filterMap_eq_nil_iff.mpr ?hpre]
    case hpre =>
      intro p hp
      have hplk : assocLookup p.1 ws.files = some p.2 :=
        assocLookup_eq_of_mem _ _ _ hfnd (by simpa using hp)
      simp [hplk]
    have hver : (ws.add_file_info fi).version = ws.version := rfl
    simp [hlnone, hver]
    rfl
  exact ⟨hmain, by rw [hmain]; rfl⟩

theorem compare_new_odt_witness :
    LanguageInfo.compare
        ⟨"de", [("Hearing_from_God",
          testWorksheet.add_file_info odtFileInfo)]⟩
        ⟨"de", [("Hearing_from_God", testWorksheet)]⟩ =
      ⟨[⟨"Hearing_from_God", ChangeType.NEW_ODT⟩]⟩ :=
  (compare_new_odt "de" [] [] "Hearing_from_God" testWorksheet odtFileInfo
    (by decide) (by decide) (by decide)).1

theorem compareRun_spec (l : List (String × WorksheetInfo))
    (n o : LanguageInfo) (acc : ChangeLog) :
    l.foldl
        (fun st e => (st.1, st.2.1, ⟨st.2.2.changes ++ compareStep st.2.1 e⟩))
        (n, o, acc) =
      (n, o, ⟨acc.changes ++ l.flatMap (compareStep o)⟩) := by
  induction l generalizing acc with
  | nil => simp
  | cons e rest ih =>
      simp only [List.foldl_cons, List.flatMap_cons, ih]
      rw [List.append_assoc]

/-- C9: the comparator is pure — running the comparison loop with the two
snapshots threaded as explicit state returns both snapshots unchanged, its
change log is exactly `compare`, and identical inputs always give the same
change log. -/
theorem compare_pure (new old : LanguageInfo) :
    (compareRun new old).1 = new ∧ (compareRun new old).2.1 = old ∧
      (compareRun new old).2.2 = new.compare old ∧
      ∀ n2 o2 : LanguageInfo, n2 = new → o2 = old →
        n2.compare o2 = new.compare old := by
  unfold compareRun
  rw [compareRun_spec]
  refine ⟨rfl, rfl, rfl, ?_⟩
  intro n2 o2 hn ho
  rw [hn, ho]

theorem compare_pure_witness :
    (compareRun testLanguageInfo testLanguageInfo).1 = testLanguageInfo ∧
      (compareRun testLanguageInfo testLanguageInfo).2.1 = testLanguageInfo ∧
      (compareRun testLanguageInfo testLanguageInfo).2.2 =
        testLanguageInfo.compare testLanguageInfo ∧
      testLanguageInfo.compare testLanguageInfo =
        testLanguageInfo.compare testLanguageInfo :=
  ⟨(compare_pure testLanguageInfo testLanguageInfo).1,
    (compare_pure testLanguageInfo testLanguageInfo).2.1,
    (compare_pure testLanguageInfo testLanguageInfo).2.2.1,
    (compare_pure testLanguageInfo testLanguageInfo).2.2.2
      testLanguageInfo testLanguageInfo rfl rfl⟩


theorem decodeTranslationProgress_encode (p : TranslationProgress) :
    decodeTranslationProgress (encodeTranslationProgress p) = some p := rfl

theorem decodeFileInfo_encodeFileInfo (fi : FileInfo)
    (h : fi.timestamp.valid) :
    decodeFileInfo (encodeFileInfo fi) = some fi := by
  obtain ⟨ft, u, ts, tu⟩ := fi
  cases tu with
  | none =>
      simp only [encodeFileInfo, decodeFileInfo]
      rw [parseTimestamp_formatTimestamp ts h]
      rfl
  | some n =>
      simp only [encodeFileInfo, decodeFileInfo]
      rw [parseTimestamp_formatTimestamp ts h]
      rfl

theorem decodeFiles_encodeFiles (l : List (String × FileInfo))
    (h : ∀ p ∈ l, (p.2 : FileInfo).timestamp.valid) :
    decodeFiles (encodeFiles l) = some l := by
  induction l with
  | nil => rfl
  | cons p rest ih =>
      obtain ⟨k, fi⟩ := p
      have hfi : fi.timestamp.valid := h (k, fi) (List.mem_cons_self _ _)
      have hrest := ih (fun q hq => h q (List.mem_cons_of_mem _ hq))
      simp only [encodeFiles, decodeFiles,
        decodeFileInfo_encodeFileInfo fi hfi, hrest]

theorem decodeWorksheetInfo_encodeWorksheetInfo (ws : WorksheetInfo)
    (h : ws.valid) :
    decodeWorksheetInfo (encodeWorksheetInfo ws) = some ws := by
  obtain ⟨hnd, hall⟩ := h
  have hfs : decodeFiles (encodeFiles ws.files) = some ws.files :=
    decodeFiles_encodeFiles _ (fun p hp => (hall p hp).2)
  obtain ⟨pg, lc, ti, prog, ver, tu, files⟩ := ws
  cases tu with
  | none =>
      have htail : decodeWSTail
          (.cons "files" (.obj (encodeFiles files)) .nil) =
          some (none, files) := by
        rw [decodeWSTail, hfs]
        rfl
      show decodeWorksheetInfo (.obj (.cons "__class__" (.str "WorksheetInfo")
        (.cons "page" (.str pg)
        (.cons "language_code" (.str lc)
        (.cons "title" (.str ti)
        (.cons "progress" (encodeTranslationProgress prog)
        (.cons "version" (.str ver)
        (.cons "files" (.obj (encodeFiles files)) .nil)))))))) = _
      rw [decodeWorksheetInfo]
      rw [decodeTranslationProgress_encode, htail]
  | some u =>
      have htail : decodeWSTail (.cons "translation_unit" (.str u)
          (.cons "files" (.obj (encodeFiles files)) .nil)) =
          some (some u, files) := by
        rw [decodeWSTail, hfs]
        rfl
      show decodeWorksheetInfo (.obj (.cons "__class__" (.str "WorksheetInfo")
        (.cons "page" (.str pg)
        (.cons "language_code" (.str lc)
        (.cons "title" (.str ti)
        (.cons "progress" (encodeTranslationProgress prog)
        (.cons "version" (.str ver)
        (.cons "translation_unit" (.str u)
        (.cons "files" (.obj (encodeFiles files)) .nil))))))))) = _
      rw [decodeWorksheetInfo]
      rw [decodeTranslationProgress_encode, htail]

theorem decodeWorksheets_encodeWorksheets
    (l : List (String × WorksheetInfo))
    (h : ∀ p ∈ l, (p.2 : WorksheetInfo).valid) :
    decodeWorksheets (encodeWorksheets l) = some l := by
  induction l with
  | nil => rfl
  | cons p rest ih =>
      obtain ⟨k, ws⟩ := p
      have hws : ws.valid := h (k, ws) (List.mem_cons_self _ _)
      have hrest := ih (fun q hq => h q (List.mem_cons_of_mem _ hq))
      simp only [encodeWorksheets, decodeWorksheets,
        decodeWorksheetInfo_encodeWorksheetInfo ws hws, hrest]

theorem decodeLanguageInfo_encodeLanguageInfo (li : LanguageInfo)
    (h : li.valid) :
    decodeLanguageInfo (encodeLanguageInfo li) = some li := by
  obtain ⟨hnd, hall⟩ := h
  have hws : decodeWorksheets (encodeWorksheets li.worksheets) =
      some li.worksheets :=
    decodeWorksheets_encodeWorksheets _ (fun p hp => (hall p hp).2.2)
  obtain ⟨lc, wss⟩ := li
  simp only [encodeLanguageInfo, decodeLanguageInfo]
  rw [hws]
  rfl

theorem decodeFileInfo_of_worksheet (ws : WorksheetInfo) :
    decodeFileInfo (encodeWorksheetInfo ws) = none := by
  obtain ⟨pg, lc, ti, prog, ver, tu, files⟩ := ws
  cases tu <;> rfl

theorem decodeFileInfo_of_language (li : LanguageInfo) :
    decodeFileInfo (encodeLanguageInfo li) = none := rfl

theorem decodeWorksheetInfo_of_language (li : LanguageInfo) :
    decodeWorksheetInfo (encodeLanguageInfo li) = none := rfl

/-- C1: round-trip stability of the codec — decoding the encoding of any
valid `FileInfo`, `WorksheetInfo` or `LanguageInfo` reconstructs the value
itself (hence re-encoding yields a byte-for-byte identical rendering, with
insertion order of nested mappings and optional-field presence
preserved). -/
theorem serialization_roundtrip :
    (∀ fi : FileInfo, fi.timestamp.valid →
      json_decode (encodeFileInfo fi) = some (.file fi) ∧
      Option.map (fun d => jsonToString (DataStructureEncoder.encode d))
          (json_decode (encodeFileInfo fi)) =
        some (jsonToString (encodeFileInfo fi))) ∧
    (∀ ws : WorksheetInfo, ws.valid →
      json_decode (encodeWorksheetInfo ws) = some (.worksheet ws) ∧
      Option.map (fun d => jsonToString (DataStructureEncoder.encode d))
          (json_decode (encodeWorksheetInfo ws)) =
        some (jsonToString (encodeWorksheetInfo ws))) ∧
    (∀ li : LanguageInfo, li.valid →
      json_decode (encodeLanguageInfo li) = some (.language li) ∧
      Option.map (fun d => jsonToString (DataStructureEncoder.encode d))
          (json_decode (encodeLanguageInfo li)) =
        some (jsonToString (encodeLanguageInfo li))) := by
  refine ⟨fun fi h => ?_, fun ws h => ?_, fun li h => ?_⟩
  · have h1 : json_decode (encodeFileInfo fi) = some (.file fi) := by
      unfold json_decode
      rw [decodeFileInfo_encodeFileInfo fi h]
    exact ⟨h1, by rw [h1]; rfl⟩
  · have h1 : json_decode (encodeWorksheetInfo ws) = some (.worksheet ws) := by
      unfold json_decode
      rw [decodeFileInfo_of_worksheet ws,
        decodeWorksheetInfo_encodeWorksheetInfo ws h]
    exact ⟨h1, by rw [h1]; rfl⟩
  · have h1 : json_decode (encodeLanguageInfo li) = some (.language li) := by
      unfold json_decode
      rw [decodeFileInfo_of_language li, decodeWorksheetInfo_of_language li,
        decodeLanguageInfo_encodeLanguageInfo li h]
    exact ⟨h1, by rw [h1]; rfl⟩

theorem serialization_roundtrip_witness :
    (pdfFileInfo.timestamp.valid ∧
      json_decode (encodeFileInfo pdfFileInfo) = some (.file pdfFileInfo)) ∧
    (testWorksheet.valid ∧
      json_decode (encodeWorksheetInfo testWorksheet) =
        some (.worksheet testWorksheet)) ∧
    (testLanguageInfo.valid ∧
      json_decode (encodeLanguageInfo testLanguageInfo) =
        some (.language testLanguageInfo)) :=
  ⟨⟨by decide, (serialization_roundtrip.1 pdfFileInfo (by decide)).1⟩,
    ⟨by decide, (serialization_roundtrip.2.1 testWorksheet (by decide)).1⟩,
    ⟨by decide, (serialization_roundtrip.2.2 testLanguageInfo (by decide)).1⟩⟩

/-- C8: a UTC timestamp with a trailing literal `Z` is accepted on input —
it parses to the same instant as the `+00:00` form, both when a `FileInfo`
is built from a textual timestamp and when a persisted document is
decoded. -/
theorem legacy_z_timestamp :
    parseTimestamp "2018-12-20T12:58:57Z" =
      parseTimestamp "2018-12-20T12:58:57+00:00" ∧
    parseTimestamp "2018-12-20T12:58:57Z" =
      some ⟨2018, 12, 20, 12, 58, 57, some (false, 0, 0)⟩ ∧
    (makeFileInfo "odt" TEST_URL "2018-12-20T12:58:57Z" none).1 =
      (makeFileInfo "odt" TEST_URL "2018-12-20T12:58:57+00:00" none).1 ∧
    decodeFileInfo fileInfoJsonZ = decodeFileInfo fileInfoJsonOffset ∧
    (decodeFileInfo fileInfoJsonZ).isSome = true := by
  decide

end Resourcesbot
